import Mathlib

/-!
Shallow embedding of the PDP piece-migration tool (the core migration engine
of the repository). The engine enumerates piece files, filters out names
already recorded in a persisted progress file, uploads the remainder in
fixed-size batches under a concurrency limit, classifies each per-item
outcome, checkpoints the progress record after every batch, and emits a
final report plus an error-log artifact.

Modelling conventions:
- The remote storage client is an external collaborator; a per-item upload is
  modelled by its observable result: `none` for success, `some msg` for a
  rejection whose message `msg` is inspected by the error classifier.
- Within a batch the source runs uploads concurrently and folds each result
  into the shared counters inside the task; all aggregate quantities proved
  about here (counts, set membership, checkpoint contents) are independent of
  the interleaving, so items are folded in batch order.
- Timestamps (`new Date().toISOString()`) are threaded as an uninterpreted string.
- Console printing is not modelled except for the observable artifacts the
  claims mention: the final summary block and the error-log file.
-/

/-! ## List and string utilities (JS semantics) -/

/-- Membership test of a string in a list, modelling `Set.prototype.has`. -/
def listHas (s : List String) (x : String) : Bool :=
  match s with
  | [] => false
  | y :: ys => y == x || listHas ys x

/-- Insertion modelling `Set.prototype.add`: append if not already present. -/
def setAdd (s : List String) (x : String) : List String :=
  if listHas s x then s else s ++ [x]

/-- Building a JS `Set` from an array (`new Set(arr)`): deduplicate keeping
first occurrences, in insertion order. -/
def jsSetOfList (l : List String) : List String :=
  l.foldl setAdd []

/-- List-of-lists concatenation (the flattening of the batch partition). -/
def listJoin : List (List String) → List String
  | [] => []
  | l :: ls => l ++ listJoin ls

/-- Whether a character sequence begins with a given pattern. -/
def listBeginsWith : List Char → List Char → Bool
  | _, [] => true
  | [], _ :: _ => false
  | a :: as, b :: bs => a == b && listBeginsWith as bs

/-- Whether `pat` occurs as a contiguous subsequence of `hay`. -/
def listContainsSeq (pat : List Char) : List Char → Bool
  | [] => listBeginsWith [] pat
  | h :: t => listBeginsWith (h :: t) pat || listContainsSeq pat t

/-- Model of `String.prototype.includes`: substring containment. -/
def strIncludes (s pat : String) : Bool :=
  listContainsSeq pat.data s.data

/-- Model of `String.prototype.startsWith`. -/
def strBeginsWith (s pre : String) : Bool :=
  listBeginsWith s.data pre.data

/-- JS whitespace test used by `parseInt` when skipping leading blanks. -/
def isJsWs (c : Char) : Bool :=
  c == ' ' || c == '\t' || c == '\n' || c == '\r' || c == '\x0b' || c == '\x0c'

/-- Value of one digit character under the given base, if valid. -/
def digitVal (base : Nat) (c : Char) : Option Nat :=
  let v : Option Nat :=
    if '0' ≤ c ∧ c ≤ '9' then some (c.toNat - '0'.toNat)
    else if 'a' ≤ c ∧ c ≤ 'f' then some (c.toNat - 'a'.toNat + 10)
    else if 'A' ≤ c ∧ c ≤ 'F' then some (c.toNat - 'A'.toNat + 10)
    else none
  match v with
  | some d => if d < base then some d else none
  | none => none

/-- Longest leading run of valid digits for the base. -/
def leadingDigits (base : Nat) : List Char → List Nat
  | [] => []
  | c :: cs =>
    match digitVal base c with
    | some d => d :: leadingDigits base cs
    | none => []

/-- Model of `parseInt(s)` with no radix argument: skip whitespace, optional sign,
optional `0x`/`0X` hex prefix, then the longest digit run; `none` models
`NaN` (no digits at all). -/
def jsParseInt (s : String) : Option Int :=
  let cs := s.data.dropWhile isJsWs
  let signAndRest : Int × List Char :=
    match cs with
    | '-' :: rest => (-1, rest)
    | '+' :: rest => (1, rest)
    | _ => (1, cs)
  let baseAndRest : Nat × List Char :=
    match signAndRest.2 with
    | '0' :: 'x' :: rest => (16, rest)
    | '0' :: 'X' :: rest => (16, rest)
    | rest => (10, rest)
  let ds := leadingDigits baseAndRest.1 baseAndRest.2
  match ds with
  | [] => none
  | _ :: _ =>
    some (signAndRest.1 * Int.ofNat (ds.foldl (fun a d => a * baseAndRest.1 + d) 0))

/-! ## Data model -/

/-- In-memory progress record (`MigrationProgress` in the source); the JS
`Set` of migrated names is modelled as a duplicate-free list in insertion
order. -/
structure MigrationProgress where
  lastUpdated : String
  totalFiles : Nat
  migratedCount : Nat
  migratedFiles : List String
deriving DecidableEq

/-- One entry of `stats.errors`: `{ file, error, timestamp }`. -/
structure ErrorRecord where
  file : String
  error : String
  timestamp : String
deriving DecidableEq

/-- Run-scoped counters (the `stats` object). `startTime` and the derived
wall-clock quantities are not modelled. -/
structure Stats where
  total : Nat
  completed : Nat
  failed : Nat
  skipped : Nat
  errors : List ErrorRecord
deriving DecidableEq

/-- The progress file's parsed JSON shape (fields as persisted; the name list
is the serialized array, possibly with duplicates or a lying count). -/
structure StoredProgress where
  lastUpdated : String
  totalFiles : Nat
  migratedCount : Nat
  migratedFiles : List String
deriving DecidableEq

/-- Fatal conditions: the only errors that escape `main` and reach
`main().catch`, which exits the process with code 1. -/
inductive FatalError where
  | configMissingKey
  | configMissingProvider
  | corruptState
  | sourceUnavailable
deriving DecidableEq

/-- Per-item outcome buckets of the error classifier. -/
inductive Outcome where
  | success
  | duplicate
  | permanentSkip
  | transientFailure
deriving DecidableEq, BEq

/-! ## Outcome classification -/

/-- Duplicate signal: the remote side already holds this content
(`duplicate subPieceCid` or `Must add at least one piece`). -/
def dupSignal (msg : String) : Bool :=
  strIncludes msg "duplicate subPieceCid" || strIncludes msg "Must add at least one piece"

/-- Size-ceiling signal (`exceeds maximum allowed size`). -/
def sizeSignal (msg : String) : Bool :=
  strIncludes msg "exceeds maximum allowed size"

/-- Classification of an upload result, in the source's priority order. -/
def classify : Option String → Outcome
  | none => Outcome.success
  | some msg =>
    if dupSignal msg then Outcome.duplicate
    else if sizeSignal msg then Outcome.permanentSkip
    else Outcome.transientFailure

/-- Number of classification buckets that apply to an upload result. -/
def bucketCount (err : Option String) : Nat :=
  ([Outcome.success, Outcome.duplicate, Outcome.permanentSkip,
    Outcome.transientFailure].filter (fun o => classify err == o)).length

/-- Whether a result is counted under `stats.failed`
(permanent skip or transient failure). -/
def isFailedOutcome (err : Option String) : Bool :=
  match classify err with
  | Outcome.permanentSkip => true
  | Outcome.transientFailure => true
  | _ => false

/-- Fold of one per-item upload result into the progress record and run
counters: the body of the per-item task in `main` (success path plus the
three catch branches). -/
def processItem (pg : MigrationProgress) (st : Stats) (file : String)
    (err : Option String) (now : String) : MigrationProgress × Stats :=
  match err with
  | none =>
      ({ pg with migratedFiles := setAdd pg.migratedFiles file,
                 migratedCount := pg.migratedCount + 1 },
       { st with completed := st.completed + 1 })
  | some msg =>
      if dupSignal msg then
        ({ pg with migratedFiles := setAdd pg.migratedFiles file,
                   migratedCount := pg.migratedCount + 1 },
         { st with completed := st.completed + 1 })
      else if sizeSignal msg then
        ({ pg with migratedFiles := setAdd pg.migratedFiles file },
         { st with failed := st.failed + 1,
                   errors := st.errors ++
                     [{ file := file, error := "FILE_TOO_LARGE: " ++ msg,
                        timestamp := now }] })
      else
        (pg,
         { st with failed := st.failed + 1,
                   errors := st.errors ++
                     [{ file := file, error := msg, timestamp := now }] })

/-! ## Progress store -/

/-- Model of `loadProgress`: absent file yields the zero-valued record; an existing
but unparsable file propagates as `CorruptState`; a parsed record is loaded
with the stored array converted back to a `Set`. The input is `none` when no
file exists, `some none` when the file exists but does not parse, and
`some (some p)` when it parses to `p`. -/
def loadProgress (stored : Option (Option StoredProgress)) (now : String) :
    Except FatalError MigrationProgress :=
  match stored with
  | some (some p) =>
      Except.ok { lastUpdated := p.lastUpdated, totalFiles := p.totalFiles,
                  migratedCount := p.migratedCount,
                  migratedFiles := jsSetOfList p.migratedFiles }
  | some none => Except.error FatalError.corruptState
  | none =>
      Except.ok { lastUpdated := now, totalFiles := 0, migratedCount := 0,
                  migratedFiles := [] }

/-- JSON string literal (the names and timestamps written by this tool
contain no characters that `JSON.stringify` escapes). -/
def jsonStr (s : String) : String := "\"" ++ s ++ "\""

/-- Rendering by `JSON.stringify` of a string array at indent level 2. -/
def jsonStrArray (l : List String) : String :=
  match l with
  | [] => "[]"
  | _ :: _ =>
    "[\n" ++ String.intercalate ",\n" (l.map (fun s => "    " ++ jsonStr s)) ++
      "\n  ]"

/-- Model of `saveProgress`: the full serialized text written over the progress file
(`JSON.stringify(data, null, 2)` of the record with the name set converted to
an array). -/
def saveProgress (pg : MigrationProgress) : String :=
  "\x7b\n  \"lastUpdated\": " ++ jsonStr pg.lastUpdated ++
  ",\n  \"totalFiles\": " ++ toString pg.totalFiles ++
  ",\n  \"migratedCount\": " ++ toString pg.migratedCount ++
  ",\n  \"migratedFiles\": " ++ jsonStrArray pg.migratedFiles ++ "\n\x7d"

/-- Observable on-disk contents if the process crashes during
`writeFile(progressFile, data)`: the write opens the file with truncation and
then appends, so a crash after `k` bytes leaves the first `k` characters of
the new serialization (the prior version is destroyed at open). -/
def crashStates (content : String) : List (List Char) :=
  (List.range (content.data.length + 1)).map (fun k => content.data.take k)

/-- The durability property asserted of `save`: after a crash at any point of
the write, the file holds either the complete prior version or the complete
new version. -/
def saveAtomicOldOrNew : Prop :=
  ∀ (pg : MigrationProgress) (old : String),
    ∀ s ∈ crashStates (saveProgress pg),
      s = old.data ∨ s = (saveProgress pg).data

/-! ## Enumeration, configuration, batching -/

/-- Candidate filter of the enumerator: keep names starting with `s-t00-`. -/
def pieceFilter (files : List String) : List String :=
  files.filter (fun f => strBeginsWith f "s-t00-")

/-- Remaining set: candidates whose name the progress record does not hold,
order of the candidate sequence preserved. -/
def remainingOf (pieceFiles : List String) (pg : MigrationProgress) :
    List String :=
  pieceFiles.filter (fun f => !(listHas pg.migratedFiles f))

/-- Truthiness of the private-key setting: `!CONFIG.privateKey` rejects an
unset or empty environment value. -/
def privateKeyOk (pk : Option String) : Bool :=
  match pk with
  | some s => !(s == "")
  | none => false

/-- Model of `CONFIG.providerId = parseInt(process.env.PROVIDER_ID || '0')`: the
default string `'0'` is used when the variable is unset or empty. -/
def providerIdOf (env : Option String) : Option Int :=
  jsParseInt (match env with
    | some s => if s == "" then "0" else s
    | none => "0")

/-- Truthiness of the parsed provider id: `!CONFIG.providerId` rejects both
`NaN` (failed parse) and `0`. -/
def providerIdOk (pid : Option Int) : Bool :=
  match pid with
  | some n => !(n == 0)
  | none => false

/-- Structural worker for the batch partition, recursing on a fuel bound
that dominates the list length. -/
def chunksAux (n : Nat) : Nat → List String → List (List String)
  | _, [] => []
  | 0, _ :: _ => []
  | fuel + 1, x :: xs =>
    match n with
    | 0 => []
    | m + 1 => (x :: xs).take (m + 1) :: chunksAux n fuel (xs.drop m)

/-- Partition of the remaining list into consecutive slices of `n` items
(the `for (let i = 0; i < len; i += batchSize)` slicing loop). The source
loop does not terminate for `n = 0`; the model is used with positive `n`. -/
def chunks (n : Nat) (l : List String) : List (List String) :=
  chunksAux n l.length l

/-! ## Driver -/

/-- Environment and external-world inputs of one run. `storedProgress` and
`sourceFiles` are as in `loadProgress` / `readdir`; `uploadErr` gives each
file's upload result. -/
structure Env where
  privateKey : Option String
  providerIdEnv : Option String
  storedProgress : Option (Option StoredProgress)
  sourceFiles : Option (List String)
  batchSize : Nat
  now : String
  uploadErr : String → Option String

/-- Observable result of a completed (non-fatal) run. -/
structure RunResult where
  uploads : List String
  saves : List MigrationProgress
  errorLog : Option (List ErrorRecord)
  finalReport : Option Stats
  finalProgress : MigrationProgress
  stats : Stats

/-- Sequential fold of a batch's items (aggregation of the per-item task
results; the aggregate values proved about are interleaving-independent). -/
def runItems (upl : String → Option String) (now : String) :
    List String → MigrationProgress → Stats → MigrationProgress × Stats
  | [], pg, st => (pg, st)
  | f :: fs, pg, st =>
    let ps := processItem pg st f (upl f) now
    runItems upl now fs ps.1 ps.2

/-- Outcome of driving all batches: final record and counters, checkpoint
saves in order, and every file offered to the upload pool in order. -/
structure BatchesResult where
  progress : MigrationProgress
  stats : Stats
  saves : List MigrationProgress
  uploads : List String

/-- The batch loop: run each batch, refresh `lastUpdated`, checkpoint. -/
def runBatches (upl : String → Option String) (now : String) :
    List (List String) → MigrationProgress → Stats → BatchesResult
  | [], pg, st => { progress := pg, stats := st, saves := [], uploads := [] }
  | b :: bs, pg, st =>
    let ps := runItems upl now b pg st
    let pgSaved := { ps.1 with lastUpdated := now }
    let rest := runBatches upl now bs pgSaved ps.2
    { progress := rest.progress, stats := rest.stats,
      saves := pgSaved :: rest.saves, uploads := b ++ rest.uploads }

/-- Run counters at the start of the loop phase: `stats.total` scanned,
`stats.skipped` taken over from the loaded record, the rest zero. -/
def initialStats (pieceFiles : List String) (pg0 : MigrationProgress) : Stats :=
  { total := pieceFiles.length, completed := 0, failed := 0,
    skipped := pg0.migratedCount, errors := [] }

/-- The batch-loop phase applied to the remaining files, starting from the
loaded record with `totalFiles` refreshed. -/
def batchPhase (env : Env) (pg0 : MigrationProgress) (files : List String) :
    BatchesResult :=
  runBatches env.uploadErr env.now
    (chunks env.batchSize (remainingOf (pieceFilter files) pg0))
    { pg0 with totalFiles := (pieceFilter files).length }
    (initialStats (pieceFilter files) pg0)

/-- Everything `main` does after configuration, progress load and directory
scan all succeeded (none of it can fail): enumeration filter, the
empty-remaining early return (which skips the final report and the final
save), the batch loop, the error-log artifact, the final report and the
final save. -/
def runAfterLoad (env : Env) (pg0 : MigrationProgress) (files : List String) :
    RunResult :=
  if (remainingOf (pieceFilter files) pg0).isEmpty then
    { uploads := [], saves := [], errorLog := none, finalReport := none,
      finalProgress := pg0, stats := initialStats (pieceFilter files) pg0 }
  else
    { uploads := (batchPhase env pg0 files).uploads,
      saves := (batchPhase env pg0 files).saves ++
        [(batchPhase env pg0 files).progress],
      errorLog := if (batchPhase env pg0 files).stats.failed > 0
        then some (batchPhase env pg0 files).stats.errors else none,
      finalReport := some (batchPhase env pg0 files).stats,
      finalProgress := (batchPhase env pg0 files).progress,
      stats := (batchPhase env pg0 files).stats }

/-- The whole run (`main` wrapped by `main().catch`): configuration
validation, progress load, directory scan, then the driver. The remote-client
handle creation is an external collaborator assumed available (spec section
1); its failure modes are outside the model. -/
def runMain (env : Env) : Except FatalError RunResult :=
  if privateKeyOk env.privateKey then
    if providerIdOk (providerIdOf env.providerIdEnv) then
      match loadProgress env.storedProgress env.now with
      | Except.error e => Except.error e
      | Except.ok pg0 =>
        match env.sourceFiles with
        | none => Except.error FatalError.sourceUnavailable
        | some files => Except.ok (runAfterLoad env pg0 files)
    else Except.error FatalError.configMissingProvider
  else Except.error FatalError.configMissingKey

/-- Process exit code: 0 when `main` resolves, 1 when `main().catch` fires. -/
def exitCode (res : Except FatalError RunResult) : Nat :=
  match res with
  | Except.ok _ => 0
  | Except.error _ => 1

/-- Checkpoint saves a run performs (none when the run dies fatally). -/
def savesOf (e : Env) : List MigrationProgress :=
  match runMain e with
  | Except.ok r => r.saves
  | Except.error _ => []

/-- Files offered to the upload pool (none when the run dies fatally). -/
def uploadsOf (e : Env) : List String :=
  match runMain e with
  | Except.ok r => r.uploads
  | Except.error _ => []

/-- The error-log artifact, when written. -/
def errorLogOf (e : Env) : Option (List ErrorRecord) :=
  match runMain e with
  | Except.ok r => r.errorLog
  | Except.error _ => none

/-- The final summary block, when emitted. -/
def reportOf (e : Env) : Option Stats :=
  match runMain e with
  | Except.ok r => r.finalReport
  | Except.error _ => none

/-- Final run counters (zero record when the run dies fatally). -/
def statsOf (e : Env) : Stats :=
  match runMain e with
  | Except.ok r => r.stats
  | Except.error _ =>
      { total := 0, completed := 0, failed := 0, skipped := 0, errors := [] }

/-- The save-point invariant the spec asserts of every checkpoint. -/
abbrev saveInvariantAt (e : Env) : Prop :=
  ∀ pg ∈ savesOf e, pg.migratedCount = pg.migratedFiles.length

/-- Number of offered items whose outcome is a transient failure. -/
def transientsOf (e : Env) : Nat :=
  ((uploadsOf e).filter
    (fun f => classify (e.uploadErr f) == Outcome.transientFailure)).length

/-! ## Shutdown coordinator -/

/-- Effects the signal handler can perform, in order. -/
inductive ShutdownStep where
  | setFlag
  | logLine
  | awaitBatchDrain
  | saveCheckpoint (pg : MigrationProgress)
  | exitProcess (code : Nat)
deriving DecidableEq

/-- Effect trace of `handleShutdown`, by the `isShuttingDown` flag: a first
signal sets the flag, logs, saves the progress record as it currently stands
and exits 0; a repeated signal logs and exits 1 at once. The handler never
waits for the in-flight batch. -/
def handleShutdown (flag : Bool) (pg : MigrationProgress) : List ShutdownStep :=
  if flag then
    [ShutdownStep.logLine, ShutdownStep.exitProcess 1]
  else
    [ShutdownStep.setFlag, ShutdownStep.logLine, ShutdownStep.logLine,
     ShutdownStep.saveCheckpoint pg, ShutdownStep.logLine,
     ShutdownStep.exitProcess 0]

/-! ## Concrete runs used by witnesses and counterexamples -/

/-- The zero-valued progress record. -/
def pgEmpty : MigrationProgress :=
  { lastUpdated := "t", totalFiles := 0, migratedCount := 0, migratedFiles := [] }

/-- Zero counters at run start with no prior progress. -/
def statsZero : Stats :=
  { total := 0, completed := 0, failed := 0, skipped := 0, errors := [] }

/-- Fresh run over a single oversized piece: the upload is rejected with the
size-ceiling message, so the lone item is folded in as a permanent skip. -/
def skipEnv : Env :=
  { privateKey := some "k", providerIdEnv := some "1", storedProgress := none,
    sourceFiles := some ["s-t00-big"], batchSize := 100, now := "t",
    uploadErr := fun _ => some "exceeds maximum allowed size" }

/-- Run in which every candidate is already in the loaded name set. -/
def emptyRemEnv : Env :=
  { privateKey := some "k", providerIdEnv := some "1",
    storedProgress := some (some { lastUpdated := "t0", totalFiles := 1,
                                   migratedCount := 1,
                                   migratedFiles := ["s-t00-x"] }),
    sourceFiles := some ["s-t00-x"], batchSize := 100, now := "t",
    uploadErr := fun _ => none }

/-- Fresh two-file run in which every upload succeeds. -/
def okEnv : Env :=
  { privateKey := some "k", providerIdEnv := some "1", storedProgress := none,
    sourceFiles := some ["s-t00-a", "s-t00-b"], batchSize := 1, now := "t",
    uploadErr := fun _ => none }

/-- Fresh run whose single upload fails with an unclassified network error. -/
def transientEnv : Env :=
  { privateKey := some "k", providerIdEnv := some "1", storedProgress := none,
    sourceFiles := some ["s-t00-a"], batchSize := 100, now := "t",
    uploadErr := fun _ => some "ECONNRESET" }

/-- Run whose progress file exists but does not parse. -/
def corruptEnv : Env :=
  { privateKey := some "k", providerIdEnv := some "1",
    storedProgress := some none, sourceFiles := some ["s-t00-a"],
    batchSize := 100, now := "t", uploadErr := fun _ => none }

/-- Run with a non-numeric destination provider identity. -/
def badProviderEnv : Env :=
  { privateKey := some "k", providerIdEnv := some "abc", storedProgress := none,
    sourceFiles := some ["s-t00-a"], batchSize := 100, now := "t",
    uploadErr := fun _ => none }

/-! ## Basic lemmas about the set and list utilities -/

theorem listHas_iff (s : List String) (x : String) :
    listHas s x = true ↔ x ∈ s := by
  induction s with
  | nil => simp [listHas]
  | cons y ys ih =>
      simp [listHas, ih, beq_iff_eq]
      constructor
      · rintro (h | h)
        · exact Or.inl h.symm
        · exact Or.inr h
      · rintro (h | h)
        · exact Or.inl h.symm
        · exact Or.inr h

theorem mem_setAdd (s : List String) (x g : String) :
    g ∈ setAdd s x ↔ g ∈ s ∨ g = x := by
  unfold setAdd
  split
  · constructor
    · exact fun h => Or.inl h
    · rintro (h | rfl)
      · exact h
      · exact (listHas_iff s g).mp (by assumption)
  · simp

theorem setAdd_nodup (s : List String) (x : String) (h : s.Nodup) :
    (setAdd s x).Nodup := by
  unfold setAdd
  split
  · exact h
  · rename_i hx
    have hxs : x ∉ s := fun hm => hx ((listHas_iff s x).mpr hm)
    simp [List.nodup_append, h, hxs]

theorem setAdd_length (s : List String) (x : String) (h : x ∉ s) :
    (setAdd s x).length = s.length + 1 := by
  unfold setAdd
  split
  · rename_i hx
    exact absurd ((listHas_iff s x).mp hx) h
  · simp

theorem jsSetOfList_go_nodup (l : List String) :
    ∀ s : List String, s.Nodup → (l.foldl setAdd s).Nodup := by
  induction l with
  | nil => intro s hs; simpa using hs
  | cons x xs ih =>
      intro s hs
      simpa [List.foldl_cons] using ih (setAdd s x) (setAdd_nodup s x hs)

theorem jsSetOfList_nodup (l : List String) : (jsSetOfList l).Nodup :=
  jsSetOfList_go_nodup l [] List.nodup_nil

theorem loadProgress_nodup (sp : Option (Option StoredProgress)) (now : String)
    (pg : MigrationProgress) (h : loadProgress sp now = Except.ok pg) :
    pg.migratedFiles.Nodup := by
  match sp with
  | some (some p) =>
      simp only [loadProgress, Except.ok.injEq] at h
      subst h
      exact jsSetOfList_nodup p.migratedFiles
  | some none => simp [loadProgress] at h
  | none =>
      simp only [loadProgress, Except.ok.injEq] at h
      subst h
      exact List.nodup_nil

theorem listJoin_chunksAux (n : Nat) (hn : 0 < n) :
    ∀ (fuel : Nat) (l : List String), l.length ≤ fuel →
      listJoin (chunksAux n fuel l) = l := by
  intro fuel
  induction fuel with
  | zero =>
      intro l hl
      match l with
      | [] => simp [chunksAux, listJoin]
      | x :: xs => simp at hl
  | succ f ih =>
      intro l hl
      match l with
      | [] => simp [chunksAux, listJoin]
      | x :: xs =>
          match n, hn with
          | m + 1, _ =>
              have hlen : (xs.drop m).length ≤ f := by
                simp only [List.length_drop]
                simp only [List.length_cons] at hl
                omega
              simp only [chunksAux, listJoin, ih (xs.drop m) hlen]
              have : (x :: xs).drop (m + 1) = xs.drop m := rfl
              rw [← this, List.take_append_drop]

theorem listJoin_chunks (n : Nat) (hn : 0 < n) (l : List String) :
    listJoin (chunks n l) = l :=
  listJoin_chunksAux n hn l.length l (Nat.le_refl _)

theorem mem_remainingOf (ps : List String) (pg : MigrationProgress)
    (f : String) :
    f ∈ remainingOf ps pg ↔ f ∈ ps ∧ f ∉ pg.migratedFiles := by
  unfold remainingOf
  simp only [List.mem_filter, Bool.not_eq_true']
  constructor
  · rintro ⟨h1, h2⟩
    refine ⟨h1, fun hm => ?_⟩
    rw [(listHas_iff pg.migratedFiles f).mpr hm] at h2
    exact Bool.noConfusion h2
  · rintro ⟨h1, h2⟩
    refine ⟨h1, ?_⟩
    cases hx : listHas pg.migratedFiles f with
    | false => rfl
    | true => exact absurd ((listHas_iff pg.migratedFiles f).mp hx) h2

theorem remainingOf_nodup (ps : List String) (pg : MigrationProgress)
    (h : ps.Nodup) : (remainingOf ps pg).Nodup :=
  List.Nodup.filter _ h

theorem pieceFilter_nodup (files : List String) (h : files.Nodup) :
    (pieceFilter files).Nodup :=
  List.Nodup.filter _ h

/-! ## Per-item and batch-loop lemmas -/

theorem processItem_failed (pg : MigrationProgress) (st : Stats) (f : String)
    (err : Option String) (now : String) :
    (processItem pg st f err now).2.failed =
      st.failed + (if isFailedOutcome err then 1 else 0) := by
  unfold processItem isFailedOutcome classify
  match err with
  | none => simp
  | some msg =>
      by_cases hd : dupSignal msg
      · simp [hd]
      · by_cases hs : sizeSignal msg
        · simp [hd, hs]
        · simp [hd, hs]

theorem processItem_mem (pg : MigrationProgress) (st : Stats) (f g : String)
    (err : Option String) (now : String)
    (h : g ∈ (processItem pg st f err now).1.migratedFiles) :
    g ∈ pg.migratedFiles ∨ g = f := by
  unfold processItem at h
  match err with
  | none => exact (mem_setAdd pg.migratedFiles f g).mp h
  | some msg =>
      by_cases hd : dupSignal msg
      · simp only [hd, if_true] at h
        exact (mem_setAdd pg.migratedFiles f g).mp h
      · by_cases hs : sizeSignal msg
        · simp only [hd, hs, if_false, if_true] at h
          exact (mem_setAdd pg.migratedFiles f g).mp h
        · simp only [hd, hs, if_false] at h
          exact Or.inl h

theorem processItem_nodup (pg : MigrationProgress) (st : Stats) (f : String)
    (err : Option String) (now : String) (h : pg.migratedFiles.Nodup) :
    (processItem pg st f err now).1.migratedFiles.Nodup := by
  unfold processItem
  match err with
  | none => exact setAdd_nodup pg.migratedFiles f h
  | some msg =>
      by_cases hd : dupSignal msg
      · simp only [hd, if_true]
        exact setAdd_nodup pg.migratedFiles f h
      · by_cases hs : sizeSignal msg
        · simp only [hd, hs, if_false, if_true]
          exact setAdd_nodup pg.migratedFiles f h
        · simp only [hd, hs, if_false]
          exact h

theorem processItem_consistent (pg : MigrationProgress) (st : Stats)
    (f : String) (err : Option String) (now : String)
    (hns : classify err ≠ Outcome.permanentSkip)
    (hf : f ∉ pg.migratedFiles)
    (hc : pg.migratedCount = pg.migratedFiles.length) :
    (processItem pg st f err now).1.migratedCount =
      (processItem pg st f err now).1.migratedFiles.length := by
  unfold processItem
  match err with
  | none => simp [setAdd_length pg.migratedFiles f hf, hc]
  | some msg =>
      by_cases hd : dupSignal msg
      · simp [hd, setAdd_length pg.migratedFiles f hf, hc]
      · by_cases hs : sizeSignal msg
        · exact absurd (by simp [classify, hd, hs]) hns
        · simp [hd, hs, hc]

theorem runItems_failed (upl : String → Option String) (now : String)
    (fs : List String) :
    ∀ (pg : MigrationProgress) (st : Stats),
      (runItems upl now fs pg st).2.failed =
        st.failed + (fs.filter (fun f => isFailedOutcome (upl f))).length := by
  induction fs with
  | nil => intro pg st; simp [runItems]
  | cons f fs ih =>
      intro pg st
      simp only [runItems, ih, processItem_failed, List.filter_cons]
      by_cases hf : isFailedOutcome (upl f)
      · simp [hf]
        omega
      · simp [hf]

theorem runItems_mem (upl : String → Option String) (now : String)
    (fs : List String) :
    ∀ (pg : MigrationProgress) (st : Stats) (g : String),
      g ∈ (runItems upl now fs pg st).1.migratedFiles →
        g ∈ pg.migratedFiles ∨ g ∈ fs := by
  induction fs with
  | nil => intro pg st g h; simp [runItems] at h; exact Or.inl h
  | cons f fs ih =>
      intro pg st g h
      simp only [runItems] at h
      rcases ih _ _ g h with h1 | h1
      · rcases processItem_mem pg st f g (upl f) now h1 with h2 | h2
        · exact Or.inl h2
        · exact Or.inr (by simp [h2])
      · exact Or.inr (by simp [h1])

theorem runItems_nodup (upl : String → Option String) (now : String)
    (fs : List String) :
    ∀ (pg : MigrationProgress) (st : Stats), pg.migratedFiles.Nodup →
      (runItems upl now fs pg st).1.migratedFiles.Nodup := by
  induction fs with
  | nil => intro pg st h; simpa [runItems] using h
  | cons f fs ih =>
      intro pg st h
      simp only [runItems]
      exact ih _ _ (processItem_nodup pg st f (upl f) now h)

theorem runItems_consistent (upl : String → Option String) (now : String)
    (hns : ∀ f, classify (upl f) ≠ Outcome.permanentSkip) (fs : List String) :
    ∀ (pg : MigrationProgress) (st : Stats), fs.Nodup →
      (∀ f ∈ fs, f ∉ pg.migratedFiles) →
      pg.migratedCount = pg.migratedFiles.length →
      (runItems upl now fs pg st).1.migratedCount =
        (runItems upl now fs pg st).1.migratedFiles.length := by
  induction fs with
  | nil => intro pg st _ _ hc; simpa [runItems] using hc
  | cons f fs ih =>
      intro pg st hnd hdisj hc
      simp only [runItems]
      have hf : f ∉ pg.migratedFiles := hdisj f (by simp)
      have hstep := processItem_consistent pg st f (upl f) now (hns f) hf hc
      refine ih _ _ (List.Nodup.of_cons hnd) ?_ hstep
      intro g hg hmem
      rcases processItem_mem pg st f g (upl f) now hmem with h1 | h1
      · exact hdisj g (by simp [hg]) h1
      · subst h1
        exact (List.nodup_cons.mp hnd).1 hg

theorem runBatches_uploads (upl : String → Option String) (now : String)
    (bs : List (List String)) :
    ∀ (pg : MigrationProgress) (st : Stats),
      (runBatches upl now bs pg st).uploads = listJoin bs := by
  induction bs with
  | nil => intro pg st; simp [runBatches, listJoin]
  | cons b bs ih =>
      intro pg st
      simp [runBatches, listJoin, ih]

theorem runBatches_failed (upl : String → Option String) (now : String)
    (bs : List (List String)) :
    ∀ (pg : MigrationProgress) (st : Stats),
      (runBatches upl now bs pg st).stats.failed =
        st.failed +
          ((listJoin bs).filter (fun f => isFailedOutcome (upl f))).length := by
  induction bs with
  | nil => intro pg st; simp [runBatches, listJoin]
  | cons b bs ih =>
      intro pg st
      simp only [runBatches, listJoin, ih, runItems_failed, List.filter_append,
        List.length_append]
      omega

theorem runBatches_mem (upl : String → Option String) (now : String)
    (bs : List (List String)) :
    ∀ (pg : MigrationProgress) (st : Stats) (g : String),
      g ∈ (runBatches upl now bs pg st).progress.migratedFiles →
        g ∈ pg.migratedFiles ∨ g ∈ listJoin bs := by
  induction bs with
  | nil =>
      intro pg st g h
      simp only [runBatches] at h
      exact Or.inl h
  | cons b bs ih =>
      intro pg st g h
      simp only [runBatches] at h
      rcases ih _ _ g h with h1 | h1
      · rcases runItems_mem upl now b pg st g h1 with h2 | h2
        · exact Or.inl h2
        · exact Or.inr (by simp [listJoin, h2])
      · exact Or.inr (by simp [listJoin, h1])

theorem runBatches_saves_consistent (upl : String → Option String)
    (now : String) (hns : ∀ f, classify (upl f) ≠ Outcome.permanentSkip)
    (bs : List (List String)) :
    ∀ (pg : MigrationProgress) (st : Stats), (listJoin bs).Nodup →
      (∀ f ∈ listJoin bs, f ∉ pg.migratedFiles) →
      pg.migratedCount = pg.migratedFiles.length → pg.migratedFiles.Nodup →
      (∀ q ∈ (runBatches upl now bs pg st).saves,
          q.migratedCount = q.migratedFiles.length ∧
            q.migratedFiles.Nodup) ∧
        (runBatches upl now bs pg st).progress.migratedCount =
          (runBatches upl now bs pg st).progress.migratedFiles.length := by
  induction bs with
  | nil =>
      intro pg st _ _ hc _
      constructor
      · intro q hq
        simp [runBatches] at hq
      · simpa [runBatches] using hc
  | cons b bs ih =>
      intro pg st hnd hdisj hc hpgnd
      have hndb : b.Nodup := ((List.nodup_append).mp (by simpa [listJoin] using hnd)).1
      have hndbs : (listJoin bs).Nodup :=
        ((List.nodup_append).mp (by simpa [listJoin] using hnd)).2.1
      have hdisj2 : List.Disjoint b (listJoin bs) :=
        ((List.nodup_append).mp (by simpa [listJoin] using hnd)).2.2
      have hdisjb : ∀ f ∈ b, f ∉ pg.migratedFiles := by
        intro f hf
        exact hdisj f (by simp [listJoin, hf])
      have hstep := runItems_consistent upl now hns b pg st hndb hdisjb hc
      have hstepnd := runItems_nodup upl now b pg st hpgnd
      have hdisjrest :
          ∀ f ∈ listJoin bs,
            f ∉ ({ (runItems upl now b pg st).1 with lastUpdated := now } :
                MigrationProgress).migratedFiles := by
        intro f hf hmem
        simp only at hmem
        rcases runItems_mem upl now b pg st f hmem with h1 | h1
        · exact hdisj f (by simp [listJoin, hf]) h1
        · exact hdisj2 h1 hf
      have hrest := ih { (runItems upl now b pg st).1 with lastUpdated := now }
        (runItems upl now b pg st).2 hndbs hdisjrest (by simpa using hstep)
        (by simpa using hstepnd)
      constructor
      · intro q hq
        simp only [runBatches, List.mem_cons] at hq
        rcases hq with rfl | hq
        · exact ⟨by simpa using hstep, by simpa using hstepnd⟩
        · exact hrest.1 q hq
      · simpa [runBatches] using hrest.2

theorem runBatches_nodup (upl : String → Option String) (now : String)
    (bs : List (List String)) :
    ∀ (pg : MigrationProgress) (st : Stats), pg.migratedFiles.Nodup →
      (runBatches upl now bs pg st).progress.migratedFiles.Nodup := by
  induction bs with
  | nil => intro pg st h; simpa [runBatches] using h
  | cons b bs ih =>
      intro pg st h
      simp only [runBatches]
      exact ih _ _ (by simpa using runItems_nodup upl now b pg st h)

/-! ## Run-level plumbing lemmas -/

theorem exitCode_cases (r : Except FatalError RunResult) :
    exitCode r = 0 ∨ exitCode r = 1 := by
  unfold exitCode
  cases r with
  | ok _ => exact Or.inl rfl
  | error _ => exact Or.inr rfl

theorem runMain_ok (env : Env) (hpk : privateKeyOk env.privateKey = true)
    (hpid : providerIdOk (providerIdOf env.providerIdEnv) = true)
    (pg0 : MigrationProgress)
    (hl : loadProgress env.storedProgress env.now = Except.ok pg0)
    (files : List String) (hf : env.sourceFiles = some files) :
    runMain env = Except.ok (runAfterLoad env pg0 files) := by
  unfold runMain
  rw [hpk, hpid, hl, hf]
  simp

theorem runMain_ok_inv (env : Env) (r : RunResult)
    (h : runMain env = Except.ok r) :
    ∃ pg0 files, loadProgress env.storedProgress env.now = Except.ok pg0 ∧
      env.sourceFiles = some files ∧ r = runAfterLoad env pg0 files := by
  unfold runMain at h
  by_cases hpk : privateKeyOk env.privateKey = true
  · rw [if_pos hpk] at h
    by_cases hpid : providerIdOk (providerIdOf env.providerIdEnv) = true
    · rw [if_pos hpid] at h
      cases hl : loadProgress env.storedProgress env.now with
      | error e => rw [hl] at h; exact absurd h (by simp)
      | ok pg0 =>
          rw [hl] at h
          cases hf : env.sourceFiles with
          | none => rw [hf] at h; exact absurd h (by simp)
          | some files =>
              rw [hf] at h
              simp only [Except.ok.injEq] at h
              exact ⟨pg0, files, rfl, rfl, h.symm⟩
    · rw [if_neg hpid] at h; exact absurd h (by simp)
  · rw [if_neg hpk] at h; exact absurd h (by simp)

theorem runMain_exit_zero_iff (env : Env) :
    exitCode (runMain env) = 0 ↔
      (privateKeyOk env.privateKey = true ∧
       providerIdOk (providerIdOf env.providerIdEnv) = true ∧
       env.storedProgress ≠ some none ∧ env.sourceFiles ≠ none) := by
  unfold runMain
  cases hpk : privateKeyOk env.privateKey with
  | false => simp [exitCode, hpk]
  | true =>
    cases hpid : providerIdOk (providerIdOf env.providerIdEnv) with
    | false => simp [exitCode, hpid]
    | true =>
      cases hsp : env.storedProgress with
      | none =>
          cases hsf : env.sourceFiles with
          | none => simp [loadProgress, exitCode]
          | some files => simp [loadProgress, exitCode]
      | some osp =>
          cases osp with
          | none => simp [loadProgress, exitCode]
          | some p =>
              cases hsf : env.sourceFiles with
              | none => simp [loadProgress, exitCode]
              | some files => simp [loadProgress, exitCode]

theorem exit_one_no_effects (env : Env) (h : exitCode (runMain env) = 1) :
    savesOf env = [] ∧ uploadsOf env = [] := by
  unfold exitCode at h
  unfold savesOf uploadsOf
  cases hr : runMain env with
  | ok r => rw [hr] at h; simp at h
  | error e => simp

/-! ## Claim C6 -/

/-- C6 (confirmed): per-item upload failures are caught at the worker
boundary and never terminate the run — the exit code is zero exactly when
none of the fatal conditions (missing private key, missing/invalid provider
id, unparsable progress state, unlistable source) holds, regardless of the
per-item upload outcomes; replacing the whole per-item outcome assignment
never changes the exit code. -/
theorem c6_fatal_exit (env : Env) :
    (exitCode (runMain env) = 0 ↔
      (privateKeyOk env.privateKey = true ∧
       providerIdOk (providerIdOf env.providerIdEnv) = true ∧
       env.storedProgress ≠ some none ∧ env.sourceFiles ≠ none)) ∧
    (∀ u : String → Option String,
       exitCode (runMain { env with uploadErr := u }) =
         exitCode (runMain env)) := by
  refine ⟨runMain_exit_zero_iff env, ?_⟩
  intro u
  have ha := runMain_exit_zero_iff { env with uploadErr := u }
  have hb := runMain_exit_zero_iff env
  by_cases h : (privateKeyOk env.privateKey = true ∧
      providerIdOk (providerIdOf env.providerIdEnv) = true ∧
      env.storedProgress ≠ some none ∧ env.sourceFiles ≠ none)
  · rw [ha.mpr h, hb.mpr h]
  · have h1 : exitCode (runMain { env with uploadErr := u }) ≠ 0 :=
      fun hc => h (ha.mp hc)
    have h2 : exitCode (runMain env) ≠ 0 := fun hc => h (hb.mp hc)
    rcases exitCode_cases (runMain { env with uploadErr := u }) with hc | hc
    · exact absurd hc h1
    · rcases exitCode_cases (runMain env) with hd | hd
      · exact absurd hd h2
      · rw [hc, hd]

/-! ## Claim C7 -/

/-- C7 (confirmed): `loadProgress` returns the zero-valued record
(`totalFiles = 0`, `migratedCount = 0`, empty name set) when no progress
file exists; when the file exists but does not parse it fails with the
corrupt-state error, the run exits with code 1, and no save is performed —
the prior on-disk progress is never overwritten. -/
theorem c7_load_contract (env : Env) :
    (env.storedProgress = none →
       loadProgress env.storedProgress env.now =
         Except.ok { lastUpdated := env.now, totalFiles := 0,
                     migratedCount := 0, migratedFiles := [] }) ∧
    (env.storedProgress = some none →
       loadProgress env.storedProgress env.now =
           Except.error FatalError.corruptState ∧
         exitCode (runMain env) = 1 ∧ savesOf env = []) := by
  constructor
  · intro h
    rw [h]
    rfl
  · intro h
    have hexit : exitCode (runMain env) = 1 := by
      rcases exitCode_cases (runMain env) with h0 | h1
      · exact absurd h ((runMain_exit_zero_iff env).mp h0).2.2.1
      · exact h1
    exact ⟨by rw [h]; rfl, hexit, (exit_one_no_effects env hexit).1⟩

/-- C7 witness: a run whose progress file exists but is unparsable exits
with code 1 and saves nothing. -/
theorem c7_load_contract_witness :
    exitCode (runMain corruptEnv) = 1 ∧ savesOf corruptEnv = [] := by
  have h := (c7_load_contract corruptEnv).2 rfl
  exact ⟨h.2.1, h.2.2⟩

/-! ## Claim C9 -/

/-- C9 (corrected) counterexample: the first-signal handler performs no
wait-for-in-flight-batch step before its checkpoint save — the claimed
"allow every in-flight item of the current batch to reach a terminal
outcome, then save" behaviour is absent from the handler's effect trace. -/
theorem c9_counterexample :
    ShutdownStep.awaitBatchDrain ∉ handleShutdown false pgEmpty := by
  decide

/-- C9 (corrected, amended): on the first signal the handler sets the
shutting-down flag, saves a checkpoint of the progress record as it
currently stands — without draining the in-flight batch — and exits with
code 0; a second signal received while already shutting down exits
immediately with code 1 and performs no checkpoint save. -/
theorem c9_shutdown_trace (pg : MigrationProgress) :
    handleShutdown false pg =
      [ShutdownStep.setFlag, ShutdownStep.logLine, ShutdownStep.logLine,
       ShutdownStep.saveCheckpoint pg, ShutdownStep.logLine,
       ShutdownStep.exitProcess 0] ∧
    ShutdownStep.saveCheckpoint pg ∈ handleShutdown false pg ∧
    ShutdownStep.exitProcess 0 ∈ handleShutdown false pg ∧
    handleShutdown true pg =
      [ShutdownStep.logLine, ShutdownStep.exitProcess 1] ∧
    (∀ q : MigrationProgress,
       ShutdownStep.saveCheckpoint q ∉ handleShutdown true pg) := by
  refine ⟨rfl, by simp [handleShutdown], by simp [handleShutdown], rfl, ?_⟩
  intro q
  simp [handleShutdown]

/-! ## Claim C10 -/

/-- C10 (confirmed): a destination provider identity supplied via the
environment that parses to zero or fails to parse is treated exactly like an
absent value: the run is unchanged by deleting the variable, terminates
fatally with the provider configuration error before any enumeration or
upload (no uploads, no saves), and exits non-zero. -/
theorem c10_provider_id (env : Env) (s : String)
    (hs : env.providerIdEnv = some s)
    (hz : jsParseInt s = some 0 ∨ jsParseInt s = none) :
    runMain env = runMain { env with providerIdEnv := none } ∧
    exitCode (runMain env) = 1 ∧ uploadsOf env = [] ∧ savesOf env = [] ∧
    (privateKeyOk env.privateKey = true →
       runMain env = Except.error FatalError.configMissingProvider) := by
  have hbad : providerIdOk (providerIdOf env.providerIdEnv) = false := by
    rw [hs]
    show providerIdOk (jsParseInt (if (s == "") = true then "0" else s)) = false
    by_cases he : (s == "") = true
    · rw [if_pos he]
      decide
    · rw [if_neg he]
      rcases hz with hz | hz <;> simp [providerIdOk, hz]
  have hbad2 : providerIdOk (providerIdOf (none : Option String)) = false := by
    decide
  have hmain : runMain env =
      (if privateKeyOk env.privateKey then
        Except.error FatalError.configMissingProvider
      else Except.error FatalError.configMissingKey) := by
    unfold runMain
    rw [hbad]
    simp
  have hmain2 : runMain { env with providerIdEnv := none } =
      (if privateKeyOk env.privateKey then
        Except.error FatalError.configMissingProvider
      else Except.error FatalError.configMissingKey) := by
    unfold runMain
    rw [show ({ env with providerIdEnv := none } : Env).providerIdEnv =
      none from rfl, hbad2]
    simp
  have hexit : exitCode (runMain env) = 1 := by
    rw [hmain]
    by_cases hpk : privateKeyOk env.privateKey = true
    · rw [if_pos hpk]; rfl
    · rw [if_neg hpk]; rfl
  refine ⟨by rw [hmain, hmain2], hexit, (exit_one_no_effects env hexit).2,
    (exit_one_no_effects env hexit).1, ?_⟩
  intro hpk
  rw [hmain, if_pos hpk]

/-- C10 witness: `PROVIDER_ID=abc` (non-numeric) aborts the run with the
provider configuration error and exit code 1. -/
theorem c10_provider_id_witness :
    exitCode (runMain badProviderEnv) = 1 ∧
    runMain badProviderEnv = Except.error FatalError.configMissingProvider := by
  have h := c10_provider_id badProviderEnv "abc" rfl (Or.inr (by decide))
  exact ⟨h.2.1, h.2.2.2.2 (by decide)⟩

/-! ## Claim C2 -/

/-- C2 (confirmed): classification of a per-item outcome is total and
exclusive (exactly one bucket applies) and proceeds in the source's priority
order — no error gives Success, a duplicate signal gives Duplicate, a size
signal without a duplicate signal gives PermanentSkip, anything else gives
TransientFailure; Success and Duplicate count as completed and add the name
to the migrated set, PermanentSkip counts as failed, appends an ErrorRecord
and still adds the name, TransientFailure counts as failed, appends an
ErrorRecord and leaves the progress record untouched. -/
theorem c2_classification (pg : MigrationProgress) (st : Stats) (file : String)
    (err : Option String) (now : String) :
    bucketCount err = 1 ∧
    (err = none → classify err = Outcome.success ∧
      (processItem pg st file err now).2.completed = st.completed + 1 ∧
      (processItem pg st file err now).2.failed = st.failed ∧
      (processItem pg st file err now).2.errors = st.errors ∧
      (processItem pg st file err now).1.migratedFiles =
        setAdd pg.migratedFiles file ∧
      (processItem pg st file err now).1.migratedCount =
        pg.migratedCount + 1) ∧
    (∀ msg, err = some msg → dupSignal msg = true →
      classify err = Outcome.duplicate ∧
      (processItem pg st file err now).2.completed = st.completed + 1 ∧
      (processItem pg st file err now).2.failed = st.failed ∧
      (processItem pg st file err now).2.errors = st.errors ∧
      (processItem pg st file err now).1.migratedFiles =
        setAdd pg.migratedFiles file ∧
      (processItem pg st file err now).1.migratedCount =
        pg.migratedCount + 1) ∧
    (∀ msg, err = some msg → dupSignal msg = false → sizeSignal msg = true →
      classify err = Outcome.permanentSkip ∧
      (processItem pg st file err now).2.completed = st.completed ∧
      (processItem pg st file err now).2.failed = st.failed + 1 ∧
      (processItem pg st file err now).2.errors = st.errors ++
        [{ file := file, error := "FILE_TOO_LARGE: " ++ msg,
           timestamp := now }] ∧
      (processItem pg st file err now).1.migratedFiles =
        setAdd pg.migratedFiles file ∧
      (processItem pg st file err now).1.migratedCount = pg.migratedCount) ∧
    (∀ msg, err = some msg → dupSignal msg = false → sizeSignal msg = false →
      classify err = Outcome.transientFailure ∧
      (processItem pg st file err now).2.completed = st.completed ∧
      (processItem pg st file err now).2.failed = st.failed + 1 ∧
      (processItem pg st file err now).2.errors = st.errors ++
        [{ file := file, error := msg, timestamp := now }] ∧
      (processItem pg st file err now).1 = pg) := by
  have hbc : bucketCount err = 1 := by
    cases err with
    | none => decide
    | some msg =>
        simp only [bucketCount, classify]
        by_cases hd : dupSignal msg = true
        · simp only [hd, if_true]
          decide
        · rw [if_neg hd]
          by_cases hsz : sizeSignal msg = true
          · simp only [hsz, if_true]
            decide
          · rw [if_neg hsz]
            decide
  refine ⟨hbc, ?_, ?_, ?_, ?_⟩
  · rintro rfl
    refine ⟨rfl, ?_, ?_, ?_, ?_, ?_⟩ <;> simp [processItem]
  · rintro msg rfl hd
    refine ⟨by simp [classify, hd], ?_, ?_, ?_, ?_, ?_⟩ <;>
      simp [processItem, hd]
  · rintro msg rfl hd hsz
    refine ⟨by simp [classify, hd, hsz], ?_, ?_, ?_, ?_, ?_⟩ <;>
      simp [processItem, hd, hsz]
  · rintro msg rfl hd hsz
    refine ⟨by simp [classify, hd, hsz], ?_, ?_, ?_, ?_⟩ <;>
      simp [processItem, hd, hsz]

/-- C2 witness: a size-ceiling rejection is classified PermanentSkip and
counted failed. -/
theorem c2_classification_witness :
    (processItem pgEmpty statsZero "f"
      (some "exceeds maximum allowed size") "t").2.failed =
      statsZero.failed + 1 := by
  have h := c2_classification pgEmpty statsZero "f"
      (some "exceeds maximum allowed size") "t"
  exact (h.2.2.2.1 "exceeds maximum allowed size" rfl (by decide)
    (by decide)).2.2.1

/-! ## Claim C4 -/

/-- C4 (confirmed): in a run that gets past its fatal checks, the sequence of
items offered to the upload pool is exactly the candidate sequence (`s-t00-`
filter of the directory listing) minus the names in the loaded
`migratedFiles` set, in candidate order; in particular a name already in the
loaded set is never resubmitted. -/
theorem c4_remaining_uploads (env : Env) (hb : 0 < env.batchSize)
    (hpk : privateKeyOk env.privateKey = true)
    (hpid : providerIdOk (providerIdOf env.providerIdEnv) = true)
    (pg0 : MigrationProgress)
    (hl : loadProgress env.storedProgress env.now = Except.ok pg0)
    (files : List String) (hf : env.sourceFiles = some files) :
    uploadsOf env = remainingOf (pieceFilter files) pg0 ∧
    ∀ f ∈ pg0.migratedFiles, f ∉ uploadsOf env := by
  have hrm := runMain_ok env hpk hpid pg0 hl files hf
  have hu : uploadsOf env = (runAfterLoad env pg0 files).uploads := by
    unfold uploadsOf
    rw [hrm]
  have huploads : uploadsOf env = remainingOf (pieceFilter files) pg0 := by
    rw [hu]
    unfold runAfterLoad
    by_cases he : (remainingOf (pieceFilter files) pg0).isEmpty = true
    · rw [if_pos he, List.isEmpty_iff.mp he]
    · rw [if_neg he]
      show (batchPhase env pg0 files).uploads = _
      unfold batchPhase
      rw [runBatches_uploads, listJoin_chunks env.batchSize hb]
  refine ⟨huploads, ?_⟩
  intro f hfm hup
  rw [huploads] at hup
  exact ((mem_remainingOf (pieceFilter files) pg0 f).mp hup).2 hfm

/-- C4 witness: a fresh two-file run offers exactly the two candidates, in
directory order. -/
theorem c4_remaining_uploads_witness :
    uploadsOf okEnv = ["s-t00-a", "s-t00-b"] := by
  have h := c4_remaining_uploads okEnv (by decide) (by decide) (by decide)
      { lastUpdated := "t", totalFiles := 0, migratedCount := 0,
        migratedFiles := [] }
      rfl ["s-t00-a", "s-t00-b"] rfl
  rw [h.1]
  decide

/-! ## Claim C1 -/

/-- C1 (corrected) counterexample: in a fresh run over one oversized piece
the size-limit skip adds the name to `migratedFiles` without incrementing
`migratedCount`, so the checkpoint saved after that batch (and the final
save) violates `migratedCount = |migratedNames|`. -/
theorem c1_counterexample : ¬ saveInvariantAt skipEnv := by
  decide

/-- C1 (corrected, amended): the invariant `migratedCount = |migratedNames|`
holds at every save of a run in which no per-item outcome is classified
PermanentSkip, provided the directory listing has distinct names and the
loaded record already satisfied it; success and duplicate folds preserve the
equality, transient failures leave the record untouched, and every saved
name set is duplicate-free. A PermanentSkip fold breaks the equality, as the
counterexample shows. -/
theorem c1_save_invariant (env : Env) (hb : 0 < env.batchSize)
    (files : List String) (hf : env.sourceFiles = some files)
    (hnd : files.Nodup)
    (hcons : ∀ pg0, loadProgress env.storedProgress env.now = Except.ok pg0 →
       pg0.migratedCount = pg0.migratedFiles.length)
    (hns : ∀ f, classify (env.uploadErr f) ≠ Outcome.permanentSkip) :
    saveInvariantAt env ∧ ∀ pg ∈ savesOf env, pg.migratedFiles.Nodup := by
  have hmain : ∀ pg ∈ savesOf env,
      pg.migratedCount = pg.migratedFiles.length ∧ pg.migratedFiles.Nodup := by
    unfold savesOf
    cases hr : runMain env with
    | error e => simp
    | ok r =>
        obtain ⟨pg0, files2, hl, hf2, rfl⟩ := runMain_ok_inv env r hr
        have hfe : files2 = files := by
          rw [hf] at hf2
          injection hf2 with h
          exact h.symm
        subst files2
        unfold runAfterLoad
        by_cases he : (remainingOf (pieceFilter files) pg0).isEmpty = true
        · rw [if_pos he]
          intro pg hpg
          simp at hpg
        · rw [if_neg he]
          have hc0 := hcons pg0 hl
          have hnd0 := loadProgress_nodup env.storedProgress env.now pg0 hl
          have hjoin := listJoin_chunks env.batchSize hb
            (remainingOf (pieceFilter files) pg0)
          have hrem_nd : (remainingOf (pieceFilter files) pg0).Nodup :=
            remainingOf_nodup _ _ (pieceFilter_nodup files hnd)
          have hdisj : ∀ f ∈ listJoin
              (chunks env.batchSize (remainingOf (pieceFilter files) pg0)),
              f ∉ ({ pg0 with totalFiles := (pieceFilter files).length } :
                MigrationProgress).migratedFiles := by
            intro f hfm
            rw [hjoin] at hfm
            exact ((mem_remainingOf _ _ f).mp hfm).2
          have hall := runBatches_saves_consistent env.uploadErr env.now hns
            (chunks env.batchSize (remainingOf (pieceFilter files) pg0))
            { pg0 with totalFiles := (pieceFilter files).length }
            (initialStats (pieceFilter files) pg0)
            (by rw [hjoin]; exact hrem_nd) hdisj (by simpa using hc0)
            (by simpa using hnd0)
          intro pg hpg
          have hpg2 : pg ∈ (batchPhase env pg0 files).saves ++
              [(batchPhase env pg0 files).progress] := hpg
          simp only [List.mem_append, List.mem_singleton] at hpg2
          unfold batchPhase at hpg2
          rcases hpg2 with hpg2 | rfl
          · exact hall.1 pg hpg2
          · refine ⟨hall.2, ?_⟩
            exact runBatches_nodup env.uploadErr env.now _ _ _
              (by simpa using hnd0)
  exact ⟨fun pg hpg => (hmain pg hpg).1, fun pg hpg => (hmain pg hpg).2⟩

/-- C1 witness: in a fresh, all-successful two-file run with batch size 1,
every checkpoint satisfies `migratedCount = |migratedNames|`. -/
theorem c1_save_invariant_witness :
    ((savesOf okEnv).all
      (fun pg => pg.migratedCount == pg.migratedFiles.length)) = true := by
  have h := c1_save_invariant okEnv (by decide) ["s-t00-a", "s-t00-b"] rfl
      (by decide)
      (fun pg0 hl => by
        have h2 : pg0 = pgEmpty := by
          injection hl with h3
          exact h3.symm
        subst h2
        rfl)
      (fun f hcl => Outcome.noConfusion hcl)
  rw [List.all_eq_true]
  intro pg hpg
  exact beq_iff_eq.mpr (h.1 pg hpg)

/-! ## Claim C5 -/

/-- C5 (corrected) counterexample: a run whose single item is folded in as a
PermanentSkip (zero TransientFailures) still writes the failure artifact,
because the write is gated on `stats.failed > 0` and permanent skips count as
failed. -/
theorem c5_counterexample :
    (errorLogOf skipEnv).isSome = true ∧ transientsOf skipEnv = 0 := by
  decide

/-- C5 (corrected, amended): the failure artifact is written if and only if
at least one offered item's outcome is counted failed — a PermanentSkip or a
TransientFailure — and when written it is exactly the run's ErrorRecord
sequence. -/
theorem c5_errorlog_iff (env : Env) (hb : 0 < env.batchSize) :
    ((errorLogOf env).isSome = true ↔
      0 < ((uploadsOf env).filter
            (fun f => isFailedOutcome (env.uploadErr f))).length) ∧
    (errorLogOf env = none ∨ errorLogOf env = some (statsOf env).errors) := by
  cases hr : runMain env with
  | error e =>
      constructor
      · unfold errorLogOf uploadsOf
        rw [hr]
        simp
      · unfold errorLogOf
        rw [hr]
        exact Or.inl rfl
  | ok r =>
      obtain ⟨pg0, files, hl, hf, rfl⟩ := runMain_ok_inv env r hr
      have hel : errorLogOf env = (runAfterLoad env pg0 files).errorLog := by
        unfold errorLogOf
        rw [hr]
      have hup : uploadsOf env = (runAfterLoad env pg0 files).uploads := by
        unfold uploadsOf
        rw [hr]
      have hst : statsOf env = (runAfterLoad env pg0 files).stats := by
        unfold statsOf
        rw [hr]
      rw [hel, hup, hst]
      unfold runAfterLoad
      by_cases he : (remainingOf (pieceFilter files) pg0).isEmpty = true
      · rw [if_pos he]
        constructor
        · simp
        · exact Or.inl rfl
      · rw [if_neg he]
        have hfailed : (batchPhase env pg0 files).stats.failed =
            ((remainingOf (pieceFilter files) pg0).filter
              (fun f => isFailedOutcome (env.uploadErr f))).length := by
          unfold batchPhase
          rw [runBatches_failed, listJoin_chunks env.batchSize hb]
          simp [initialStats]
        have hupl : (batchPhase env pg0 files).uploads =
            remainingOf (pieceFilter files) pg0 := by
          unfold batchPhase
          rw [runBatches_uploads, listJoin_chunks env.batchSize hb]
        dsimp only
        constructor
        · rw [hupl, ← hfailed]
          by_cases hfl : (batchPhase env pg0 files).stats.failed > 0
          · rw [if_pos hfl]
            simpa using hfl
          · rw [if_neg hfl]
            simp
            omega
        · by_cases hfl : (batchPhase env pg0 files).stats.failed > 0
          · rw [if_pos hfl]
            exact Or.inr rfl
          · rw [if_neg hfl]
            exact Or.inl rfl

/-- C5 witness: a run with one transient network failure writes the failure
artifact. -/
theorem c5_errorlog_iff_witness : (errorLogOf transientEnv).isSome = true := by
  have h := c5_errorlog_iff transientEnv (by decide)
  exact h.1.mpr (by decide)

/-! ## Claim C8 -/

/-- C8 (corrected) counterexample: when every candidate is already migrated
the run performs no uploads and exits 0, but it returns early without
emitting the final summary block — `reportOf` is `none` even though the
all-skipped statistics (`skipped = 1`, `completed = 0`, `failed = 0`) were
available. -/
theorem c8_counterexample :
    uploadsOf emptyRemEnv = [] ∧ reportOf emptyRemEnv = none ∧
    statsOf emptyRemEnv =
      { total := 1, completed := 0, failed := 0, skipped := 1,
        errors := [] } := by
  decide

/-- C8 (corrected, amended): when the remaining set is empty the run offers
nothing to the upload pool, performs no checkpoint save, exits with code 0,
and returns early without emitting the final summary; at that point the
run-scoped statistics hold the all-skipped values — `skipped` equal to the
loaded `migratedCount`, zero completed, zero failed. -/
theorem c8_empty_remaining (env : Env)
    (hpk : privateKeyOk env.privateKey = true)
    (hpid : providerIdOk (providerIdOf env.providerIdEnv) = true)
    (pg0 : MigrationProgress)
    (hl : loadProgress env.storedProgress env.now = Except.ok pg0)
    (files : List String) (hf : env.sourceFiles = some files)
    (hempty : remainingOf (pieceFilter files) pg0 = []) :
    uploadsOf env = [] ∧ savesOf env = [] ∧ reportOf env = none ∧
    statsOf env = initialStats (pieceFilter files) pg0 ∧
    (statsOf env).skipped = pg0.migratedCount ∧
    (statsOf env).completed = 0 ∧ (statsOf env).failed = 0 ∧
    exitCode (runMain env) = 0 := by
  have hrm := runMain_ok env hpk hpid pg0 hl files hf
  have hral : runAfterLoad env pg0 files =
      { uploads := [], saves := [], errorLog := none, finalReport := none,
        finalProgress := pg0,
        stats := initialStats (pieceFilter files) pg0 } := by
    unfold runAfterLoad
    rw [hempty]
    rfl
  refine ⟨?_, ?_, ?_, ?_, ?_, ?_, ?_, ?_⟩ <;>
    simp [uploadsOf, savesOf, reportOf, statsOf, exitCode, hrm, hral,
      initialStats]

/-- C8 witness: a run whose sole candidate is already in the loaded set does
no uploads, emits no final summary, and exits 0. -/
theorem c8_empty_remaining_witness :
    uploadsOf emptyRemEnv = [] ∧ reportOf emptyRemEnv = none ∧
    exitCode (runMain emptyRemEnv) = 0 := by
  have h := c8_empty_remaining emptyRemEnv (by decide) (by decide)
      { lastUpdated := "t0", totalFiles := 1, migratedCount := 1,
        migratedFiles := ["s-t00-x"] } rfl ["s-t00-x"] rfl (by decide)
  exact ⟨h.1, h.2.2.1, h.2.2.2.2.2.2.2⟩

/-! ## Claim C3 -/

/-- C3 (corrected) counterexample: `saveProgress` overwrites the progress
file in place (truncate-then-write), so a crash after one byte leaves the
single character `\x7b` — neither the complete prior version nor the
complete new serialization. The old-or-new atomicity property is false. -/
theorem c3_counterexample : ¬ saveAtomicOldOrNew := by
  intro h
  have hm : ['\x7b'] ∈ crashStates (saveProgress pgEmpty) := by decide
  rcases h pgEmpty "old" ['\x7b'] hm with h1 | h1
  · exact absurd h1 (by decide)
  · exact absurd h1 (by decide)

/-- C3 (corrected, amended): `save(record)` rewrites the progress file in
place with the full new serialization of the record; a crash at any point of
the write leaves some truncation (prefix) of the new content — the prior
version is destroyed at open and is not among the guaranteed outcomes — and
only the completed write leaves the full new record readable. -/
theorem c3_save_truncation (pg : MigrationProgress) (s : List Char)
    (h : s ∈ crashStates (saveProgress pg)) :
    s = (saveProgress pg).data.take s.length ∧
    (saveProgress pg).data ∈ crashStates (saveProgress pg) := by
  constructor
  · unfold crashStates at h
    simp only [List.mem_map, List.mem_range] at h
    obtain ⟨k, hk, rfl⟩ := h
    rw [List.length_take]
    by_cases hkl : k ≤ (saveProgress pg).data.length
    · rw [Nat.min_eq_left hkl]
    · have hge : (saveProgress pg).data.length ≤ k := Nat.le_of_not_le hkl
      rw [Nat.min_eq_right hge, List.take_of_length_le hge, List.take_length]
  · unfold crashStates
    simp only [List.mem_map, List.mem_range]
    exact ⟨(saveProgress pg).data.length, Nat.lt_succ_self _,
      List.take_length _⟩

/-- C3 witness: the one-byte crash state is the length-1 truncation of the
new serialization, and the completed write is itself a reachable state. -/
theorem c3_save_truncation_witness :
    ['\x7b'] = (saveProgress pgEmpty).data.take ['\x7b'].length ∧
    (saveProgress pgEmpty).data ∈ crashStates (saveProgress pgEmpty) :=
  c3_save_truncation pgEmpty ['\x7b'] (by decide)
